import Mathlib

/-
  Verification of the Pulley physics sandbox (src/js/AppStarter.js).

  Shallow embedding conventions:
  * JS numbers are modelled as rationals; all arithmetic in the embedded code
    paths is exact field arithmetic, so this is faithful up to floating point.
  * The 2D vector helpers (js/vec2.js is referenced by index.html but is not
    part of the sources) are modelled as exact pairs of rationals, following
    the data model of the specification (2D points with componentwise ops).
  * Statements in strict mode that read an undeclared identifier throw a
    ReferenceError; such code paths are modelled with Except.error.
  * Mutation of instance fields is modelled by explicit state passing.
-/

set_option maxHeartbeats 1000000

namespace PulleySim

/-! ## Pulley plant (CreatePulley in AppStarter.js)

Constants are taken verbatim from the source. CreatePulley is invoked with
top = ceiling = 5, and the world config uses floor = 0. -/

/-- Earth gravitational acceleration, g = -9.81 (stepIntegrate). -/
def g : ℚ := -981/100

/-- airDensity = 1.2 kg per cubic meter (stepIntegrate). -/
def airDensity : ℚ := 6/5

/-- frictionConstant = 10 (stepIntegrate). -/
def frictionConstant : ℚ := 10

/-- payloadMass = 0.49 kg (pulley literal). -/
def payloadMass : ℚ := 49/100

/-- counterWeightMass = 0.5 kg (pulley literal). -/
def counterWeightMass : ℚ := 1/2

/-- freeStringLength = 3 (pulley literal). -/
def freeStringLength : ℚ := 3

/-- ballonetPumpInFlow = 0.006 (pulley literal). -/
def ballonetPumpInFlow : ℚ := 6/1000

/-- ballonetOutFlow = 0.01 (pulley literal). -/
def ballonetOutFlow : ℚ := 1/100

/-- diskRadius = 0.5 (CreatePulley). -/
def diskRadius : ℚ := 1/2

/-- The ceiling argument passed to CreatePulley (var ceiling = 5). -/
def ceilingY : ℚ := 5

/-- pulleyTop = diskPosition y-coordinate = top - 0.1 - diskRadius = 4.4. -/
def pulleyTop : ℚ := ceilingY - 1/10 - diskRadius

/-- world.config.floor = 0 (worldCfg literal). -/
def floorY : ℚ := 0

/-- floorHeight = pulleyTop - world.config.floor (stepIntegrate). -/
def floorHeight : ℚ := pulleyTop - floorY

/-- Mutable physics record of the pulley plant (pulley.physics). The derived
per-step diagnostics (B, W, F, D, a, totalPayloadMass) are recomputed from
these fields on every tick and are exposed below as functions. -/
structure Physics where
  isValveOpen : Bool
  isPumpOn : Bool
  ballonetVolume : ℚ
  payloadPosition : ℚ
  payloadVelocity : ℚ
deriving DecidableEq

/-- Ballonet volume after the actuator integration at the top of
stepIntegrate: pump adds inflow, valve subtracts outflow clamped at 0. -/
def stepVolume (p : Physics) (dt : ℚ) : ℚ :=
  let vol1 := if p.isPumpOn then p.ballonetVolume + ballonetPumpInFlow * dt
              else p.ballonetVolume
  if p.isValveOpen then max 0 (vol1 - ballonetOutFlow * dt) else vol1

/-- totalPayloadMass = payloadMass + ballonetVolume * airDensity, computed
from the already-updated volume (stepIntegrate step 1 and 2). -/
def totalPayloadMass (p : Physics) (dt : ℚ) : ℚ :=
  payloadMass + stepVolume p dt * airDensity

/-- Acceleration a = F / abs(totalPayloadMass - counterWeightMass) where
F = B - W + epsilon, B = totalPayloadMass * g, W = counterWeightMass * g and
epsilon = 0 in the source. Rational division by zero yields 0 here; the
exact-equal-mass singularity is excluded by the hypotheses of the theorems
that use this definition. -/
def accel (p : Physics) (dt : ℚ) : ℚ :=
  (totalPayloadMass p dt * g - counterWeightMass * g) /
    |totalPayloadMass p dt - counterWeightMass|

/-- Semi-implicit Euler velocity update: v + (a + D) * dt with drag
D = -frictionConstant * v computed from the pre-update velocity. -/
def stepVelocity (p : Physics) (dt : ℚ) : ℚ :=
  p.payloadVelocity + (accel p dt + (-frictionConstant * p.payloadVelocity)) * dt

/-- Position update before the collision clamp: position + v * dt using the
already-updated velocity. -/
def unclampedPosition (p : Physics) (dt : ℚ) : ℚ :=
  p.payloadPosition + stepVelocity p dt * dt

/-- The four collision clamp branches at the end of pulley.stepIntegrate, in
source order: right string vs floor, left string vs floor, right string vs
wheel, left string vs wheel; the final else keeps the integrated values.
Each branch assigns both payloadPosition and payloadVelocity, here returned
as a pair. -/
def clampPair (p : Physics) (dt : ℚ) : ℚ × ℚ :=
  if unclampedPosition p dt > floorHeight then
    (pulleyTop, 0)
  else if freeStringLength - unclampedPosition p dt > floorHeight then
    (freeStringLength - floorHeight, 0)
  else if unclampedPosition p dt < 0 then
    (0, 0)
  else if freeStringLength - unclampedPosition p dt < 0 then
    (freeStringLength, 0)
  else
    (unclampedPosition p dt, stepVelocity p dt)

/-- One tick of pulley.stepIntegrate(dt): actuator integration, force and
acceleration, semi-implicit Euler, then the collision clamp. The dependent
visual geometry updates do not touch the physics record and are omitted. -/
def stepIntegrate (p : Physics) (dt : ℚ) : Physics :=
  { p with ballonetVolume := stepVolume p dt,
           payloadPosition := (clampPair p dt).1,
           payloadVelocity := (clampPair p dt).2 }

/-- pulley.getControllerValue: the scalar plant measurement. -/
def getControllerValue (p : Physics) : ℚ := p.payloadPosition

/-- Dead-zone threshold epsilon = 0.0000001 of pulley.setControllerValue. -/
def epsilonCtl : ℚ := 1/10000000

/-- pulley.setControllerValue(u): maps the control signal to the two boolean
actuators by sign with the dead zone mapping both off. -/
def setControllerValue (u : ℚ) (p : Physics) : Physics :=
  if u > epsilonCtl then { p with isPumpOn := false, isValveOpen := true }
  else if u < -epsilonCtl then { p with isPumpOn := true, isValveOpen := false }
  else { p with isPumpOn := false, isValveOpen := false }

/-! ## PID controller (PIDControllerClass) -/

/-- Instance state of PIDControllerClass: the config fields copied by the
constructor plus the mutable physics record (errorValue, Pout, Iout, Dout, u).
isOn is a mutable instance field (toggled by the UI). -/
structure PIDState where
  isOn : Bool
  setPoint : ℚ
  kP : ℚ
  kI : ℚ
  kD : ℚ
  errorValue : ℚ
  Pout : ℚ
  Iout : ℚ
  Dout : ℚ
  u : ℚ
deriving DecidableEq

/-- PIDControllerClass.update with the pulley as plant. Returns the new
controller state, the new plant state, and the returned value (none models
the bare return taken when isOn is false, which changes no state). -/
def PIDupdate (s : PIDState) (p : Physics) : PIDState × Physics × Option ℚ :=
  if !s.isOn then (s, p, none)
  else
    let val := getControllerValue p
    let lastErrorValue := s.errorValue
    let e := s.setPoint - val
    let Pout := s.kP * e
    let Iout := s.Iout + s.kI * e
    let Dout := s.kD * (e - lastErrorValue)
    let u := Pout + Iout + Dout
    ({ s with errorValue := e, Pout := Pout, Iout := Iout, Dout := Dout, u := u },
     setControllerValue u p, some u)

/-- The UI toggle (scope.toggleController): flips isOn and nothing else. -/
def toggleController (s : PIDState) : PIDState := { s with isOn := !s.isOn }

/-! ## World stepper (PulleyWorld) -/

/-- PulleyWorld state relevant to stepping. The physics state advanced by the
configured stepIntegrate callback is a type parameter, mirroring the pluggable
config.stepIntegrate seam. -/
structure WorldState (σ : Type) where
  currentIteration : ℤ
  totalTime : ℚ
  lastStepTime : ℚ
  running : Bool
  phys : σ

/-- PulleyWorld._step() invoked without an argument, so dt falls back to
config.dt: increments currentIteration, adds dt to totalTime, advances the
wall-clock anchor by dt * 1000 millis, then runs the integration callback.
Both call sites in the source (stepOnce and the advanceTime loop) invoke
_step with no argument. -/
def stepWorld {σ : Type} (integ : ℚ → σ → σ) (cdt : ℚ) (w : WorldState σ) : WorldState σ :=
  { w with currentIteration := w.currentIteration + 1,
           totalTime := w.totalTime + cdt,
           lastStepTime := w.lastStepTime + cdt * 1000,
           phys := integ cdt w.phys }

/-- PulleyWorld.stepOnce: one forced step, independent of the running flag. -/
def stepOnce {σ : Type} (integ : ℚ → σ → σ) (cdt : ℚ) (w : WorldState σ) : WorldState σ :=
  stepWorld integ cdt w

/-- PulleyWorld.getDtSinceLastStep: 0 while stopped, otherwise the wall-clock
delta (now - lastStepTime) converted from millis to seconds. -/
def getDtSinceLastStep {σ : Type} (w : WorldState σ) (now : ℚ) : ℚ :=
  if w.running then (now - w.lastStepTime) / 1000 else 0

/-- The while loop of PulleyWorld.advanceTime: while dt > config.dt, subtract
config.dt and take one step. Returns the leftover dt and the stepped world.
The 0 < cdt argument is the config.dt > 0 assertion of the world constructor,
needed for termination. -/
def advanceLoop {σ : Type} (integ : ℚ → σ → σ) (cdt : ℚ) (hc : 0 < cdt)
    (dt : ℚ) (w : WorldState σ) : ℚ × WorldState σ :=
  if h : cdt < dt then advanceLoop integ cdt hc (dt - cdt) (stepWorld integ cdt w)
  else (dt, w)
termination_by (⌈dt / cdt⌉).toNat
decreasing_by
  have hne : cdt ≠ 0 := ne_of_gt hc
  have h1 : (dt - cdt) / cdt = dt / cdt - 1 := by field_simp
  have h2 : (1 : ℤ) < ⌈dt / cdt⌉ := by
    rw [Int.lt_ceil]
    push_cast
    rw [lt_div_iff₀ hc]
    linarith
  have h3 : ⌈dt / cdt - 1⌉ = ⌈dt / cdt⌉ - 1 := by
    rw [show (1 : ℚ) = ((1 : ℤ) : ℚ) by norm_num, Int.ceil_sub_int]
  rw [h1, h3]
  omega

/-- PulleyWorld.advanceTime: runs the loop on the elapsed time and returns
remainder / config.dt together with the final world state. -/
def advanceTime {σ : Type} (integ : ℚ → σ → σ) (cdt : ℚ) (hc : 0 < cdt)
    (now : ℚ) (w : WorldState σ) : ℚ × WorldState σ :=
  let d := getDtSinceLastStep w now
  let r := advanceLoop integ cdt hc d w
  (r.1 / cdt, r.2)

/-! ## Collision pair tracker (CollisionList) -/

/-- ObjectType.Movable flag value: makeFlagEnum assigns RigidBody = 1,
Movable = 2; Movable objects report type 3 = RigidBody or Movable. -/
def movableFlag : ℕ := 2

/-- The data of a world object seen by the collision tracker: its id and its
type flag set. -/
structure CObj where
  objectId : ℤ
  objectType : ℕ
deriving DecidableEq

/-- obj.isObjectType(ObjectType.Movable): the JS expression returns the masked
number (0 or 2), which the source compares and tests for truthiness. -/
def isMovableMask (o : CObj) : ℕ := o.objectType &&& movableFlag

/-- CollisionList.compareObjects: true when obj1 comes first. Equal movability
compares obj1.objectId - obj2.objectId > 0; otherwise the movable object comes
first. -/
def compareObjects (o1 o2 : CObj) : Bool :=
  if isMovableMask o1 = isMovableMask o2 then
    decide (o1.objectId - o2.objectId > 0)
  else
    decide (isMovableMask o1 ≠ 0)

/-- Modelled from the spec: the CollisionPair class is referenced by
getOrCreatePair (new CollisionPair()) but its definition is not under src/.
Per the data model of the spec it holds the two object references and
lastActiveIteration; setObjects binds the objects and refresh records the
iteration. -/
structure CollisionPair where
  obj1 : CObj
  obj2 : CObj
  lastActiveIteration : ℤ
deriving DecidableEq

/-- CollisionList state: nested pair map (association lists keyed by object
id), the pair pool and the current iteration. -/
structure CollisionList where
  pairs : List (ℤ × List (ℤ × CollisionPair))
  pairPool : List CollisionPair
  currentIteration : ℤ
deriving DecidableEq

/-- Association list lookup, modelling JS object property access by key. -/
def alistGet {α : Type} (k : ℤ) : List (ℤ × α) → Option α
  | [] => none
  | (k2, v) :: rest => if k = k2 then some v else alistGet k rest

/-- Association list update, modelling JS object property assignment. -/
def alistSet {α : Type} (k : ℤ) (v : α) : List (ℤ × α) → List (ℤ × α)
  | [] => [(k, v)]
  | (k2, v2) :: rest =>
      if k = k2 then (k, v) :: rest else (k2, v2) :: alistSet k v rest

/-- CollisionList.getOrCreatePair. When the pair is absent and the pool is
non-empty, the source reads the bare identifier pairPool (not this.pairPool);
no such binding exists in any enclosing scope, so under the strict mode
pragma of the file this throws a ReferenceError, modelled as Except.error.
Otherwise the new pair is inserted, bound via setObjects and refreshed with
the current iteration. An existing pair is refreshed in place. -/
def getOrCreatePair (cl : CollisionList) (o1 o2 : CObj) :
    Except Unit (CollisionPair × CollisionList) :=
  let list1 := (alistGet o1.objectId cl.pairs).getD []
  match alistGet o2.objectId list1 with
  | some pr =>
      let pr2 := { pr with lastActiveIteration := cl.currentIteration }
      Except.ok (pr2,
        { cl with pairs := alistSet o1.objectId (alistSet o2.objectId pr2 list1) cl.pairs })
  | none =>
      if cl.pairPool.length > 0 then
        Except.error ()
      else
        let pr2 : CollisionPair :=
          { obj1 := o1, obj2 := o2, lastActiveIteration := cl.currentIteration }
        Except.ok (pr2,
          { cl with pairs := alistSet o1.objectId (alistSet o2.objectId pr2 list1) cl.pairs })

/-- CollisionList.addPair. The source intends to swap the two arguments when
compareObjects is false, but after var tmp = obj2 it executes obj2 = obj1
followed by obj1 = obj2 (tmp is never read), leaving BOTH variables equal to
the original obj1. The swap branch therefore degenerates to the pair
(obj1, obj1). -/
def addPair (cl : CollisionList) (obj1 obj2 : CObj) :
    Except Unit (CollisionPair × CollisionList) :=
  let ordered := if !compareObjects obj1 obj2 then (obj1, obj1) else (obj1, obj2)
  getOrCreatePair cl ordered.1 ordered.2

/-- Total number of CollisionPair entries stored in the nested pair map. -/
def countPairs (cl : CollisionList) : ℕ :=
  (cl.pairs.map fun e => e.2.length).sum

/-- The C4 scenario: register (A, B) and then (B, A) in the same iteration,
for two static bodies A (id 1) and B (id 2), starting from an empty list. -/
def c4run : Except Unit (CollisionPair × CollisionList) := do
  let r1 ← addPair { pairs := [], pairPool := [], currentIteration := 5 }
             { objectId := 1, objectType := 1 } { objectId := 2, objectType := 1 }
  addPair r1.2 { objectId := 2, objectType := 1 } { objectId := 1, objectType := 1 }

/-! ## Object management (PulleyWorld.addObject / removeObject) -/

/-- The data of an object relevant to registration: objectId = 0 models a JS
object whose objectId field is still unset (falsy), and the type flag set. -/
structure WObj where
  objectId : ℕ
  objectType : ℕ
deriving DecidableEq

/-- Object-management state of PulleyWorld: the id allocator and the two maps
(modelled by their key sets; the stored objects themselves play no role in
the registration logic). -/
structure ObjWorld where
  lastObjectId : ℕ
  objects : Finset ℕ
  movables : Finset ℕ
deriving DecidableEq

/-- PulleyWorld.addObject: obj.objectId = obj.objectId or ++lastObjectId (the
increment only happens when the id is falsy), then the duplicate assert, then
insertion into objects and, for movables, into movables. The assert throws
AFTER the allocator increment, so the error carries the world with the
mutated allocator but unchanged maps, plus the id the object ended up with. -/
def addObject (w : ObjWorld) (o : WObj) : Except (ObjWorld × ℕ) (ObjWorld × ℕ) :=
  let newId := if o.objectId = 0 then w.lastObjectId + 1 else o.objectId
  let last2 := if o.objectId = 0 then w.lastObjectId + 1 else w.lastObjectId
  if newId ∈ w.objects then
    Except.error ({ w with lastObjectId := last2 }, newId)
  else
    Except.ok
      ({ lastObjectId := last2,
         objects := insert newId w.objects,
         movables := if o.objectType &&& movableFlag ≠ 0 then insert newId w.movables
                     else w.movables }, newId)

/-- PulleyWorld.removeObject: unconditional delete from both maps (the movables
delete is guarded by the movable flag, as in the source). -/
def removeObject (w : ObjWorld) (o : WObj) : ObjWorld :=
  { w with objects := w.objects.erase o.objectId,
           movables := if o.objectType &&& movableFlag ≠ 0 then w.movables.erase o.objectId
                       else w.movables }

/-! ## Geometry: thick line containment (Shapes.Line.containsPoint) -/

/-- vec2.squaredDistance on exact 2D points. -/
def sqDist (a b : ℚ × ℚ) : ℚ := (b.1 - a.1) ^ 2 + (b.2 - a.2) ^ 2

/-- The inner distToSegmentSquared helper of Shapes.Line.containsPoint,
following the source branch structure: degenerate segment, t < 0 region,
t > 1 region, and the orthogonal projection point for t in between. -/
def distToSegmentSquared (p v w : ℚ × ℚ) : ℚ :=
  if sqDist v w = 0 then sqDist p v
  else
    let t := ((p.1 - v.1) * (w.1 - v.1) + (p.2 - v.2) * (w.2 - v.2)) / sqDist v w
    if t < 0 then sqDist p v
    else if t > 1 then sqDist p w
    else sqDist p (v.1 + t * (w.1 - v.1), v.2 + t * (w.2 - v.2))

/-- Shapes.Line.containsPoint: Math.sqrt of the squared segment distance
compared directly (unsquared) against width. -/
def lineContainsPoint (v1 v2 : ℚ × ℚ) (width : ℚ) (p : ℚ × ℚ) : Prop :=
  Real.sqrt ((distToSegmentSquared p v1 v2 : ℚ) : ℝ) ≤ (width : ℝ)

/-- The projection of p onto the segment with the parameter clamped to [0,1]. -/
def clampedProjection (p v1 v2 : ℚ × ℚ) : ℚ × ℚ :=
  let t := ((p.1 - v1.1) * (v2.1 - v1.1) + (p.2 - v1.2) * (v2.2 - v1.2)) / sqDist v1 v2
  let tc := min 1 (max 0 t)
  (v1.1 + tc * (v2.1 - v1.1), v1.2 + tc * (v2.2 - v1.2))

/-- Modelled from the spec: point-to-segment distance computed with the
projection parameter clamped to [0,1], with the unsquared distance compared
directly against width. -/
def lineContainsPointSpec (v1 v2 : ℚ × ℚ) (width : ℚ) (p : ℚ × ℚ) : Prop :=
  Real.sqrt ((sqDist p (clampedProjection p v1 v2) : ℚ) : ℝ) ≤ (width : ℝ)

/-! ## Disk bounding box (Shapes.Disk.getBoundingBox) -/

/-- A Disk shape: center and radius. -/
structure DiskShape where
  center : ℚ × ℚ
  radius : ℚ
deriving DecidableEq

/-- An output AABB as written by getBoundingBox. -/
structure BoundsBox where
  min : ℚ × ℚ
  max : ℚ × ℚ
deriving DecidableEq

/-- Shapes.Disk.getBoundingBox. Every one of its four assignments reads the
bare identifier radius instead of this.radius; no radius binding exists in
any enclosing scope, so under the strict mode pragma of the file the very
first assignment throws a ReferenceError and no field is written. Modelled
as Except.error. -/
def diskGetBoundingBox (_d : DiskShape) (_box : BoundsBox) : Except Unit BoundsBox :=
  Except.error ()

/-- Modelled from the spec: the Disk bounding box pads the center by the
radius on each axis. -/
def diskGetBoundingBoxSpec (d : DiskShape) : BoundsBox :=
  { min := (d.center.1 - d.radius, d.center.2 - d.radius),
    max := (d.center.1 + d.radius, d.center.2 + d.radius) }

/-! ## Rigid bodies and the world point query -/

/-- A rigid body as seen by containsPoint: its world position and its shape
containment test in the local frame (the virtual dispatch to
this.shape.containsPoint is modelled as a function field). -/
structure RBody where
  position : ℚ × ℚ
  contains : ℚ × ℚ → Bool

/-- Objects.RigidBody.containsPoint: vec2.subtract(worldPoint, worldPoint,
position) writes the translated point back into the argument vector and the
shape test runs on it. Returns the test result together with the final value
of the argument vector. -/
def rigidBodyContainsPoint (o : RBody) (worldPoint : ℚ × ℚ) : Bool × (ℚ × ℚ) :=
  let localPoint := (worldPoint.1 - o.position.1, worldPoint.2 - o.position.2)
  (o.contains localPoint, localPoint)

/-- The loop body of PulleyWorld.foreachObjectAtPoint: one scratch vector is
allocated before the loop; each iteration copies the query point into the
scratch (overwriting whatever the previous containsPoint call left there) and
runs containsPoint on the scratch. The query point itself is never written.
Returns the visited-and-matched objects, the final query point and the final
scratch value. -/
def foreachLoop (objs : List RBody) (queryPoint scratch : ℚ × ℚ)
    (acc : List RBody) : List RBody × (ℚ × ℚ) × (ℚ × ℚ) :=
  match objs with
  | [] => (acc.reverse, queryPoint, scratch)
  | o :: rest =>
      let copied := queryPoint
      let result := rigidBodyContainsPoint o copied
      foreachLoop rest queryPoint result.2 (if result.1 then o :: acc else acc)

/-- PulleyWorld.foreachObjectAtPoint: runs the loop with a fresh zero scratch
vector (vec2.create()) and reports the matched objects in iteration order,
together with the final value of the query point passed by the caller. -/
def foreachObjectAtPoint (objs : List RBody) (queryPoint : ℚ × ℚ) :
    List RBody × (ℚ × ℚ) :=
  let r := foreachLoop objs queryPoint (0, 0) []
  (r.1, r.2.1)

/-! ## Helper lemmas for the pulley plant -/

/-- The acceleration magnitude never exceeds g: the force is the mass
difference times g and the denominator is the absolute mass difference. -/
theorem accel_abs (p : Physics) (dt : ℚ) : |accel p dt| ≤ 981/100 := by
  have hg : |g| = 981/100 := by
    have hgv : g = -(981/100) := by norm_num [g]
    rw [hgv, abs_neg, abs_of_nonneg (by norm_num)]
  unfold accel
  rw [show totalPayloadMass p dt * g - counterWeightMass * g
      = (totalPayloadMass p dt - counterWeightMass) * g by ring]
  rcases eq_or_ne (totalPayloadMass p dt - counterWeightMass) 0 with h | h
  · rw [h]
    simp only [zero_mul, abs_zero, div_zero]
    norm_num
  · rw [abs_div, abs_abs, abs_mul, mul_comm, mul_div_assoc,
        div_self (abs_ne_zero.mpr h), mul_one, hg]

/-- Velocity bound 981/1000 (the terminal velocity g / frictionConstant) is
preserved by the semi-implicit Euler update for tick lengths up to 1/10. -/
theorem stepVelocity_abs (p : Physics) (dt : ℚ) (hdt0 : 0 ≤ dt) (hdt1 : dt ≤ 1/10)
    (hv : |p.payloadVelocity| ≤ 981/1000) : |stepVelocity p dt| ≤ 981/1000 := by
  have ha := accel_abs p dt
  have hrw : stepVelocity p dt
      = p.payloadVelocity * (1 - 10 * dt) + accel p dt * dt := by
    unfold stepVelocity frictionConstant
    ring
  have hfac : (0:ℚ) ≤ 1 - 10 * dt := by linarith
  have h2 : |p.payloadVelocity * (1 - 10 * dt) + accel p dt * dt|
      ≤ |p.payloadVelocity| * (1 - 10 * dt) + |accel p dt| * dt := by
    calc |p.payloadVelocity * (1 - 10 * dt) + accel p dt * dt|
        ≤ |p.payloadVelocity * (1 - 10 * dt)| + |accel p dt * dt| := abs_add _ _
      _ = |p.payloadVelocity| * (1 - 10 * dt) + |accel p dt| * dt := by
          rw [abs_mul, abs_mul, abs_of_nonneg hfac, abs_of_nonneg hdt0]
  have h3 : |p.payloadVelocity| * (1 - 10 * dt) ≤ (981/1000) * (1 - 10 * dt) :=
    mul_le_mul_of_nonneg_right hv hfac
  have h4 : |accel p dt| * dt ≤ (981/100) * dt :=
    mul_le_mul_of_nonneg_right ha hdt0
  rw [hrw]
  linarith

/-- One tick preserves the position range and the velocity bound, and any
tick whose unclamped position update overshoots freeStringLength lands
exactly on freeStringLength with velocity exactly 0. -/
theorem stepIntegrate_inv (p : Physics) (dt : ℚ) (hdt0 : 0 ≤ dt) (hdt1 : dt ≤ 1/10)
    (hp0 : 0 ≤ p.payloadPosition) (hp1 : p.payloadPosition ≤ freeStringLength)
    (hv : |p.payloadVelocity| ≤ 981/1000) :
    (0 ≤ (stepIntegrate p dt).payloadPosition ∧
     (stepIntegrate p dt).payloadPosition ≤ freeStringLength ∧
     |(stepIntegrate p dt).payloadVelocity| ≤ 981/1000) ∧
    (freeStringLength < unclampedPosition p dt →
       (stepIntegrate p dt).payloadPosition = freeStringLength ∧
       (stepIntegrate p dt).payloadVelocity = 0) := by
  have hv2 := stepVelocity_abs p dt hdt0 hdt1 hv
  have hvd : |stepVelocity p dt * dt| ≤ 981/10000 := by
    rw [abs_mul, abs_of_nonneg hdt0]
    calc |stepVelocity p dt| * dt ≤ (981/1000) * dt :=
          mul_le_mul_of_nonneg_right hv2 hdt0
      _ ≤ (981/1000) * (1/10) := mul_le_mul_of_nonneg_left hdt1 (by norm_num)
      _ = 981/10000 := by norm_num
  have hFS : freeStringLength = 3 := rfl
  have hFH : floorHeight = 22/5 := by
    norm_num [floorHeight, pulleyTop, ceilingY, diskRadius, floorY]
  have hPT : pulleyTop = 22/5 := by
    norm_num [pulleyTop, ceilingY, diskRadius]
  have hq1 : unclampedPosition p dt ≤ 3 + 981/10000 := by
    have h5 := (abs_le.mp hvd).2
    rw [hFS] at hp1
    unfold unclampedPosition
    linarith
  have hq2 : -(981/10000) ≤ unclampedPosition p dt := by
    have h5 := (abs_le.mp hvd).1
    unfold unclampedPosition
    linarith
  have hpos : (stepIntegrate p dt).payloadPosition = (clampPair p dt).1 := rfl
  have hvel : (stepIntegrate p dt).payloadVelocity = (clampPair p dt).2 := rfl
  rw [hpos, hvel, hFS]
  unfold clampPair
  rw [hFS, hFH, hPT]
  split_ifs with hA hB hC hD
  · exfalso; linarith
  · exfalso; linarith
  · refine ⟨⟨le_refl _, by norm_num, by norm_num⟩, ?_⟩
    intro hgt
    exfalso; linarith
  · exact ⟨⟨by norm_num, le_refl _, by norm_num⟩, fun _ => ⟨rfl, rfl⟩⟩
  · refine ⟨⟨by linarith, by linarith, hv2⟩, ?_⟩
    intro hgt
    exfalso; linarith

/-! ## C1 -/

/-- C1: starting anywhere in [0, freeStringLength] with a bounded velocity
(the initial state has velocity 0, and the bound 981/1000 is the terminal
velocity of the dynamics, re-established by every tick), along the whole
trajectory of repeated stepIntegrate(dt) ticks the payload position stays in
[0, freeStringLength]; and on any tick whose unclamped position update would
exceed freeStringLength, stepIntegrate sets payloadPosition exactly equal to
freeStringLength and payloadVelocity exactly to 0. -/
theorem stepIntegrate_clamp_trajectory (p : Physics) (dt : ℚ)
    (hdt0 : 0 < dt) (hdt1 : dt ≤ 1/10)
    (hp0 : 0 ≤ p.payloadPosition) (hp1 : p.payloadPosition ≤ freeStringLength)
    (hv : |p.payloadVelocity| ≤ 981/1000) (n : ℕ) :
    (0 ≤ ((fun s => stepIntegrate s dt)^[n] p).payloadPosition ∧
     ((fun s => stepIntegrate s dt)^[n] p).payloadPosition ≤ freeStringLength ∧
     |((fun s => stepIntegrate s dt)^[n] p).payloadVelocity| ≤ 981/1000) ∧
    (freeStringLength < unclampedPosition ((fun s => stepIntegrate s dt)^[n] p) dt →
       (stepIntegrate ((fun s => stepIntegrate s dt)^[n] p) dt).payloadPosition
         = freeStringLength ∧
       (stepIntegrate ((fun s => stepIntegrate s dt)^[n] p) dt).payloadVelocity = 0) := by
  induction n with
  | zero =>
      simp only [Function.iterate_zero_apply]
      exact ⟨⟨hp0, hp1, hv⟩,
        (stepIntegrate_inv p dt (le_of_lt hdt0) hdt1 hp0 hp1 hv).2⟩
  | succ n ih =>
      obtain ⟨⟨i0, i1, i2⟩, _⟩ := ih
      obtain ⟨⟨j0, j1, j2⟩, _⟩ :=
        stepIntegrate_inv ((fun s => stepIntegrate s dt)^[n] p) dt
          (le_of_lt hdt0) hdt1 i0 i1 i2
      rw [Function.iterate_succ_apply']
      exact ⟨⟨j0, j1, j2⟩,
        (stepIntegrate_inv _ dt (le_of_lt hdt0) hdt1 j0 j1 j2).2⟩

/-- C1 witness: the initial state of the application (pump on, valve closed,
volume 0.01, position 1.5, velocity 0) with the configured tick dt = 0.015,
after one tick. -/
theorem stepIntegrate_clamp_trajectory_witness :
    ((0:ℚ) < 3/200) ∧ ((3/200:ℚ) ≤ 1/10) ∧
    ((0:ℚ) ≤ (Physics.mk false true (1/100) (3/2) 0).payloadPosition) ∧
    ((Physics.mk false true (1/100) (3/2) 0).payloadPosition ≤ freeStringLength) ∧
    (|(Physics.mk false true (1/100) (3/2) 0).payloadVelocity| ≤ 981/1000) ∧
    ((0 ≤ ((fun s => stepIntegrate s (3/200))^[1]
          (Physics.mk false true (1/100) (3/2) 0)).payloadPosition ∧
      ((fun s => stepIntegrate s (3/200))^[1]
          (Physics.mk false true (1/100) (3/2) 0)).payloadPosition ≤ freeStringLength ∧
      |((fun s => stepIntegrate s (3/200))^[1]
          (Physics.mk false true (1/100) (3/2) 0)).payloadVelocity| ≤ 981/1000) ∧
     (freeStringLength < unclampedPosition ((fun s => stepIntegrate s (3/200))^[1]
          (Physics.mk false true (1/100) (3/2) 0)) (3/200) →
        (stepIntegrate ((fun s => stepIntegrate s (3/200))^[1]
            (Physics.mk false true (1/100) (3/2) 0)) (3/200)).payloadPosition
          = freeStringLength ∧
        (stepIntegrate ((fun s => stepIntegrate s (3/200))^[1]
            (Physics.mk false true (1/100) (3/2) 0)) (3/200)).payloadVelocity = 0)) :=
  ⟨by norm_num, by norm_num, by norm_num, by norm_num [freeStringLength], by norm_num,
   stepIntegrate_clamp_trajectory (Physics.mk false true (1/100) (3/2) 0) (3/200)
     (by norm_num) (by norm_num) (by norm_num) (by norm_num [freeStringLength])
     (by norm_num) 1⟩

/-! ## C6 -/

/-- C6: every call to stepOnce() increases currentIteration by exactly 1 and
totalTime by exactly config.dt, for every world state, in particular
regardless of the running flag. -/
theorem stepOnce_advances {σ : Type} (integ : ℚ → σ → σ) (cdt : ℚ) (w : WorldState σ) :
    (stepOnce integ cdt w).currentIteration = w.currentIteration + 1 ∧
    (stepOnce integ cdt w).totalTime = w.totalTime + cdt :=
  ⟨rfl, rfl⟩

/-! ## C3 -/

/-- C3: update() is a no-op when isOn is false; when isOn is true it computes
error, Pout, the accumulated Iout, Dout and u exactly as specified, pushes u
into the plant via setControllerValue and returns u; toggling isOn never
touches the Iout accumulator; and with all three gains zero and accumulator
zero every update returns u = 0, keeps the accumulator at zero and leaves the
actuators in the dead-zone mapping (pump off, valve closed). -/
theorem PIDupdate_spec (s : PIDState) (p : Physics) :
    (s.isOn = false → PIDupdate s p = (s, p, none)) ∧
    ((toggleController s).Iout = s.Iout) ∧
    (s.isOn = true →
      ((PIDupdate s p).1.errorValue = s.setPoint - getControllerValue p ∧
       (PIDupdate s p).1.Pout = s.kP * (s.setPoint - getControllerValue p) ∧
       (PIDupdate s p).1.Iout = s.Iout + s.kI * (s.setPoint - getControllerValue p) ∧
       (PIDupdate s p).1.Dout = s.kD * ((s.setPoint - getControllerValue p) - s.errorValue) ∧
       (PIDupdate s p).1.u
         = (PIDupdate s p).1.Pout + (PIDupdate s p).1.Iout + (PIDupdate s p).1.Dout ∧
       (PIDupdate s p).2.1 = setControllerValue ((PIDupdate s p).1.u) p ∧
       (PIDupdate s p).2.2 = some ((PIDupdate s p).1.u))) ∧
    (s.isOn = true → s.kP = 0 → s.kI = 0 → s.kD = 0 → s.Iout = 0 →
      ((PIDupdate s p).2.2 = some 0 ∧
       (PIDupdate s p).1.Iout = 0 ∧
       (PIDupdate s p).2.1.isPumpOn = false ∧
       (PIDupdate s p).2.1.isValveOpen = false)) := by
  refine ⟨?_, rfl, ?_, ?_⟩
  · intro h
    simp [PIDupdate, h]
  · intro h
    simp [PIDupdate, h, getControllerValue]
  · intro h hP hI hD hIo
    norm_num [PIDupdate, h, hP, hI, hD, hIo, setControllerValue, getControllerValue,
      epsilonCtl]

/-- C3 witness: a controller that is on with all gains zero and accumulator
zero, updated against the initial plant state. -/
theorem PIDupdate_spec_witness :
    ((PIDState.mk true 2 0 0 0 0 0 0 0 0).isOn = true) ∧
    ((PIDState.mk true 2 0 0 0 0 0 0 0 0).kP = 0) ∧
    ((PIDState.mk true 2 0 0 0 0 0 0 0 0).kI = 0) ∧
    ((PIDState.mk true 2 0 0 0 0 0 0 0 0).kD = 0) ∧
    ((PIDState.mk true 2 0 0 0 0 0 0 0 0).Iout = 0) ∧
    ((PIDupdate (PIDState.mk true 2 0 0 0 0 0 0 0 0)
        (Physics.mk false true (1/100) (3/2) 0)).2.2 = some 0 ∧
     (PIDupdate (PIDState.mk true 2 0 0 0 0 0 0 0 0)
        (Physics.mk false true (1/100) (3/2) 0)).1.Iout = 0 ∧
     (PIDupdate (PIDState.mk true 2 0 0 0 0 0 0 0 0)
        (Physics.mk false true (1/100) (3/2) 0)).2.1.isPumpOn = false ∧
     (PIDupdate (PIDState.mk true 2 0 0 0 0 0 0 0 0)
        (Physics.mk false true (1/100) (3/2) 0)).2.1.isValveOpen = false) :=
  ⟨rfl, rfl, rfl, rfl, rfl,
   (PIDupdate_spec (PIDState.mk true 2 0 0 0 0 0 0 0 0)
      (Physics.mk false true (1/100) (3/2) 0)).2.2.2 rfl rfl rfl rfl rfl⟩

/-! ## C10 -/

/-- The loop of foreachObjectAtPoint never writes the query point, and the
matched objects are exactly those whose containsPoint succeeds on a copy of
the query point, independent of the scratch vector contents. -/
theorem foreachLoop_spec (objs : List RBody) (pt : ℚ × ℚ) :
    ∀ (scratch : ℚ × ℚ) (acc : List RBody),
      (foreachLoop objs pt scratch acc).2.1 = pt ∧
      (foreachLoop objs pt scratch acc).1
        = acc.reverse ++ objs.filter (fun o => (rigidBodyContainsPoint o pt).1) := by
  induction objs with
  | nil => intro scratch acc; simp [foreachLoop]
  | cons o rest ih =>
      intro scratch acc
      have hstep : foreachLoop (o :: rest) pt scratch acc
          = foreachLoop rest pt (rigidBodyContainsPoint o pt).2
              (if (rigidBodyContainsPoint o pt).1 then o :: acc else acc) := rfl
      rw [hstep]
      obtain ⟨ih1, ih2⟩ :=
        ih (rigidBodyContainsPoint o pt).2
           (if (rigidBodyContainsPoint o pt).1 then o :: acc else acc)
      refine ⟨ih1, ?_⟩
      rw [ih2, List.filter_cons]
      cases hb : (rigidBodyContainsPoint o pt).1 <;> simp [hb]

/-- C10: the public containsPoint mutates its argument in place, leaving the
original point minus the object position in it, while foreachObjectAtPoint
shields its caller by copying the query point into the scratch vector for
every object, so the query point is unchanged after the call and every object
is tested against the original query point. -/
theorem containsPoint_frame_effect :
    (∀ (o : RBody) (pt : ℚ × ℚ),
       rigidBodyContainsPoint o pt
         = (o.contains (pt.1 - o.position.1, pt.2 - o.position.2),
            (pt.1 - o.position.1, pt.2 - o.position.2))) ∧
    (∀ (objs : List RBody) (pt : ℚ × ℚ),
       (foreachObjectAtPoint objs pt).2 = pt ∧
       (foreachObjectAtPoint objs pt).1
         = objs.filter fun o => (rigidBodyContainsPoint o pt).1) := by
  refine ⟨fun o pt => rfl, fun objs pt => ?_⟩
  obtain ⟨h1, h2⟩ := foreachLoop_spec objs pt (0, 0) []
  exact ⟨h1, by simpa using h2⟩

/-! ## C8 -/

/-- C8: Disk.getBoundingBox never produces the radius-padded box the claim
describes: reading the unbound identifier radius throws a ReferenceError on
every call (modelled as Except.error), while the intended behavior per the
spec pads the center by the radius on each axis. -/
theorem diskBoundingBox_bug :
    diskGetBoundingBox ⟨(0, 0), 1⟩ ⟨(0, 0), (0, 0)⟩ = Except.error () ∧
    diskGetBoundingBoxSpec ⟨(0, 0), 1⟩ = ⟨(-1, -1), (1, 1)⟩ ∧
    ∀ (d : DiskShape) (box : BoundsBox),
      diskGetBoundingBox d box ≠ Except.ok (diskGetBoundingBoxSpec d) := by
  refine ⟨rfl, by norm_num [diskGetBoundingBoxSpec], fun d box h => ?_⟩
  simp [diskGetBoundingBox] at h

/-! ## C7 -/

/-- C7: when the requested pair is absent and the pool is non-empty, the
pool-reuse branch of getOrCreatePair does not complete normally: it reads the
undeclared identifier pairPool and throws (Except.error), instead of popping
this.pairPool. -/
theorem getOrCreatePair_pool_throws :
    getOrCreatePair
      { pairs := [],
        pairPool := [{ obj1 := ⟨0, 0⟩, obj2 := ⟨0, 0⟩, lastActiveIteration := 0 }],
        currentIteration := 3 }
      ⟨1, 1⟩ ⟨2, 1⟩ = Except.error () := rfl

/-! ## C4 -/

/-- C4: registering (A, B) and then (B, A) in the same iteration does not
store exactly one canonical pair. With two static bodies A (id 1) and B
(id 2), the call that needs reordering degenerates to the self-pair (A, A)
because the swap assigns obj1 = obj2 after obj2 = obj1, so the two calls
store two distinct entries in the map. -/
theorem addPair_not_canonical :
    (c4run.toOption.map fun r => countPairs r.2) = some 2 ∧
    ((addPair { pairs := [], pairPool := [], currentIteration := 5 }
        { objectId := 1, objectType := 1 } { objectId := 2, objectType := 1 }).toOption.map
      fun r => (r.1.obj1, r.1.obj2))
      = some ({ objectId := 1, objectType := 1 }, { objectId := 1, objectType := 1 }) :=
  ⟨rfl, rfl⟩

/-! ## C9 -/

/-- C9 counterexample: an id freed by removeObject can be assigned to a
later-added object. Registering an object with explicit id 1 (the allocator
still at 0), removing it, and then adding an object without an id assigns the
freed id 1 again. -/
theorem addObject_id_reuse :
    ((addObject { lastObjectId := 0, objects := ∅, movables := ∅ } ⟨1, 1⟩).toOption
      = some ({ lastObjectId := 0, objects := {1}, movables := ∅ }, 1)) ∧
    (removeObject { lastObjectId := 0, objects := {1}, movables := ∅ } ⟨1, 1⟩
      = { lastObjectId := 0, objects := ∅, movables := ∅ }) ∧
    ((addObject { lastObjectId := 0, objects := ∅, movables := ∅ } ⟨0, 1⟩).toOption.map
        Prod.snd = some 1) := by
  refine ⟨?_, ?_, ?_⟩ <;> decide

/-- C9 amended: addObject assigns the next id (lastObjectId + 1) to an object
without one and rejects an object whose id is already registered, leaving
both maps unchanged (the allocator mutation happens before the failing
assert); and when every registered id is bounded by the allocator, a freshly
auto-assigned id exceeds the allocator bound, hence differs from every id
freed earlier (all of which are bounded by the allocator, which removeObject
never decreases). With explicit ids this bound can be broken, which is what
the counterexample exploits. -/
theorem addObject_spec (w : ObjWorld) (o : WObj)
    (hinv : ∀ i ∈ w.objects, i ≤ w.lastObjectId) :
    (o.objectId = 0 →
       (addObject w o
         = Except.ok
             ({ lastObjectId := w.lastObjectId + 1,
                objects := insert (w.lastObjectId + 1) w.objects,
                movables := if o.objectType &&& movableFlag ≠ 0
                            then insert (w.lastObjectId + 1) w.movables
                            else w.movables }, w.lastObjectId + 1) ∧
        (∀ i ∈ insert (w.lastObjectId + 1) w.objects, i ≤ w.lastObjectId + 1) ∧
        (∀ r, r ≤ w.lastObjectId → w.lastObjectId + 1 ≠ r))) ∧
    (o.objectId ∈ w.objects → o.objectId ≠ 0 →
       ∃ we : ObjWorld × ℕ, addObject w o = Except.error we ∧
         we.1.objects = w.objects ∧ we.1.movables = w.movables) ∧
    ((removeObject w o).lastObjectId = w.lastObjectId ∧
     ∀ i ∈ (removeObject w o).objects, i ≤ (removeObject w o).lastObjectId) := by
  refine ⟨?_, ?_, rfl, ?_⟩
  · intro h0
    have hnot : w.lastObjectId + 1 ∉ w.objects := by
      intro hm
      have := hinv _ hm
      omega
    refine ⟨?_, ?_, ?_⟩
    · simp [addObject, h0, hnot]
    · intro i hi
      rcases Finset.mem_insert.mp hi with rfl | hi2
      · exact le_refl _
      · exact Nat.le_succ_of_le (hinv _ hi2)
    · intro r hr
      omega
  · intro hmem hne
    refine ⟨({ w with lastObjectId := w.lastObjectId }, o.objectId), ?_, rfl, rfl⟩
    simp [addObject, hne, hmem]
  · intro i hi
    exact hinv _ (Finset.mem_of_mem_erase hi)

/-- C9 witness: a world whose registered ids 1 and 2 are bounded by the
allocator value 2; auto-assignment hands out 3, which cannot collide with any
freed id bounded by 2. -/
theorem addObject_spec_witness :
    (∀ i ∈ ({1, 2} : Finset ℕ), i ≤ 2) ∧
    ((addObject { lastObjectId := 2, objects := {1, 2}, movables := ∅ } ⟨0, 1⟩
       = Except.ok
           ({ lastObjectId := 3,
              objects := insert 3 {1, 2},
              movables := if (1 : ℕ) &&& movableFlag ≠ 0 then insert 3 ∅ else ∅ }, 3) ∧
      (∀ i ∈ insert 3 ({1, 2} : Finset ℕ), i ≤ 3) ∧
      (∀ r, r ≤ 2 → 3 ≠ r))) :=
  ⟨by decide,
   (addObject_spec { lastObjectId := 2, objects := {1, 2}, movables := ∅ } ⟨0, 1⟩
      (by decide)).1 rfl⟩

/-! ## C2 -/

/-- When the accumulated time does not exceed the tick, the advanceTime loop
exits immediately. -/
theorem advanceLoop_eq_of_le {σ : Type} (integ : ℚ → σ → σ) (cdt : ℚ) (hc : 0 < cdt)
    (dt : ℚ) (w : WorldState σ) (h : ¬ cdt < dt) :
    advanceLoop integ cdt hc dt w = (dt, w) := by
  rw [advanceLoop]
  simp [h]

/-- When the accumulated time exceeds the tick, the loop consumes one tick and
performs one step. -/
theorem advanceLoop_eq_of_lt {σ : Type} (integ : ℚ → σ → σ) (cdt : ℚ) (hc : 0 < cdt)
    (dt : ℚ) (w : WorldState σ) (h : cdt < dt) :
    advanceLoop integ cdt hc dt w
      = advanceLoop integ cdt hc (dt - cdt) (stepWorld integ cdt w) := by
  rw [advanceLoop]
  simp [h]

/-- Full characterization of the advanceTime loop: it performs some number n
of steps, leaves the remainder dt - n * cdt, the remainder never exceeds cdt,
no step happens when dt does not exceed cdt, and the remainder is strictly
positive when at least the first iteration ran. -/
theorem advanceLoop_spec {σ : Type} (integ : ℚ → σ → σ) (cdt : ℚ) (hc : 0 < cdt) :
    ∀ (dt : ℚ) (w : WorldState σ), ∃ n : ℕ,
      advanceLoop integ cdt hc dt w = (dt - n * cdt, (stepWorld integ cdt)^[n] w) ∧
      dt - n * cdt ≤ cdt ∧
      (dt ≤ cdt → n = 0) ∧
      (cdt < dt → 0 < dt - n * cdt) := by
  suffices key : ∀ (k : ℕ) (dt : ℚ) (w : WorldState σ), (⌈dt / cdt⌉).toNat ≤ k →
      ∃ n : ℕ,
        advanceLoop integ cdt hc dt w = (dt - n * cdt, (stepWorld integ cdt)^[n] w) ∧
        dt - n * cdt ≤ cdt ∧
        (dt ≤ cdt → n = 0) ∧
        (cdt < dt → 0 < dt - n * cdt) by
    intro dt w
    exact key (⌈dt / cdt⌉).toNat dt w (le_refl _)
  have base : ∀ (dt : ℚ) (w : WorldState σ), ¬ cdt < dt →
      ∃ n : ℕ,
        advanceLoop integ cdt hc dt w = (dt - n * cdt, (stepWorld integ cdt)^[n] w) ∧
        dt - n * cdt ≤ cdt ∧
        (dt ≤ cdt → n = 0) ∧
        (cdt < dt → 0 < dt - n * cdt) := by
    intro dt w h
    push_neg at h
    refine ⟨0, ?_, by simpa using h, fun _ => rfl, fun hlt => absurd hlt (not_lt.mpr h)⟩
    rw [advanceLoop_eq_of_le integ cdt hc dt w (not_lt.mpr h)]
    simp
  intro k
  induction k with
  | zero =>
      intro dt w hk
      refine base dt w ?_
      intro hlt
      have h1 : (0 : ℤ) < ⌈dt / cdt⌉ := by
        rw [Int.lt_ceil]
        push_cast
        exact div_pos (lt_trans hc hlt) hc
      omega
  | succ k ih =>
      intro dt w hk
      by_cases h : cdt < dt
      · have hne : cdt ≠ 0 := ne_of_gt hc
        have hmeas : (⌈(dt - cdt) / cdt⌉).toNat ≤ k := by
          have h1 : (dt - cdt) / cdt = dt / cdt - 1 := by field_simp
          have h3 : ⌈dt / cdt - 1⌉ = ⌈dt / cdt⌉ - 1 := by
            rw [show (1 : ℚ) = ((1 : ℤ) : ℚ) by norm_num, Int.ceil_sub_int]
          rw [h1, h3]
          omega
        obtain ⟨n, hn1, hn2, hn3, hn4⟩ := ih (dt - cdt) (stepWorld integ cdt w) hmeas
        have e1 : dt - cdt - (n : ℚ) * cdt = dt - ((n + 1 : ℕ) : ℚ) * cdt := by
          push_cast
          ring
        refine ⟨n + 1, ?_, ?_, fun hle => absurd h (not_lt.mpr hle), fun _ => ?_⟩
        · rw [advanceLoop_eq_of_lt integ cdt hc dt w h, hn1, e1,
              ← Function.iterate_succ_apply]
        · have : dt - cdt - (n : ℚ) * cdt ≤ cdt := hn2
          push_cast
          linarith
        · by_cases h2 : dt - cdt ≤ cdt
          · have hn0 := hn3 h2
            subst hn0
            push_cast
            simp only [Nat.cast_zero, zero_mul, sub_zero] at *
            linarith
          · push_neg at h2
            have := hn4 h2
            push_cast
            linarith
      · exact base dt w h

/-- Applying n world steps adds n to currentIteration and n * cdt to the
total time. -/
theorem stepWorld_iterate {σ : Type} (integ : ℚ → σ → σ) (cdt : ℚ) (n : ℕ)
    (w : WorldState σ) :
    ((stepWorld integ cdt)^[n] w).currentIteration = w.currentIteration + n ∧
    ((stepWorld integ cdt)^[n] w).totalTime = w.totalTime + n * cdt := by
  induction n with
  | zero => simp
  | succ n ih =>
      rw [Function.iterate_succ_apply']
      constructor
      · show ((stepWorld integ cdt)^[n] w).currentIteration + 1 = _
        rw [ih.1]
        push_cast
        ring
      · show ((stepWorld integ cdt)^[n] w).totalTime + cdt = _
        rw [ih.2]
        push_cast
        ring

/-- C2 amended: while stopped, advanceTime performs no step and returns 0.
While running with a nonnegative wall-clock delta, it performs n whole steps
and returns a value r with elapsed = (n + r) * dt and r in the closed
interval [0, 1]: the return value can be exactly 1 (when the elapsed time is
a positive whole multiple of dt the loop performs one step fewer than the
number of whole ticks contained and returns 1), so the half-open interval
[0, 1) of the original claim is off by the right endpoint. -/
theorem advanceTime_spec {σ : Type} (integ : ℚ → σ → σ) (cdt : ℚ) (hc : 0 < cdt)
    (now : ℚ) (w : WorldState σ) :
    (w.running = false → advanceTime integ cdt hc now w = (0, w)) ∧
    (w.running = true → 0 ≤ now - w.lastStepTime →
      ∃ n : ℕ,
        (advanceTime integ cdt hc now w).2.currentIteration = w.currentIteration + n ∧
        (advanceTime integ cdt hc now w).2.totalTime = w.totalTime + n * cdt ∧
        (now - w.lastStepTime) / 1000
          = ((n : ℚ) + (advanceTime integ cdt hc now w).1) * cdt ∧
        0 ≤ (advanceTime integ cdt hc now w).1 ∧
        (advanceTime integ cdt hc now w).1 ≤ 1) := by
  constructor
  · intro h
    unfold advanceTime getDtSinceLastStep
    rw [h]
    simp only [Bool.false_eq_true, if_false]
    rw [advanceLoop_eq_of_le integ cdt hc 0 w (by linarith)]
    simp
  · intro hr he
    have helapsed : getDtSinceLastStep w now = (now - w.lastStepTime) / 1000 := by
      unfold getDtSinceLastStep
      rw [hr]
      simp
    obtain ⟨n, h1, h2, h3, h4⟩ :=
      advanceLoop_spec integ cdt hc ((now - w.lastStepTime) / 1000) w
    have hadv : advanceTime integ cdt hc now w
        = (((now - w.lastStepTime) / 1000 - n * cdt) / cdt,
           (stepWorld integ cdt)^[n] w) := by
      unfold advanceTime
      dsimp only
      rw [helapsed, h1]
    have hiter := stepWorld_iterate integ cdt n w
    have hrem0 : 0 ≤ (now - w.lastStepTime) / 1000 - n * cdt := by
      by_cases hcase : (now - w.lastStepTime) / 1000 ≤ cdt
      · have hn0 := h3 hcase
        subst hn0
        simp only [Nat.cast_zero, zero_mul, sub_zero]
        exact div_nonneg he (by norm_num)
      · push_neg at hcase
        exact le_of_lt (h4 hcase)
    refine ⟨n, ?_, ?_, ?_, ?_, ?_⟩
    · rw [hadv]
      exact hiter.1
    · rw [hadv]
      exact hiter.2
    · rw [hadv]
      field_simp
      ring
    · rw [hadv]
      exact div_nonneg hrem0 (le_of_lt hc)
    · rw [hadv]
      rw [div_le_one hc]
      linarith

/-- C2 witness: a running world with 40 millis elapsed against dt = 0.015,
which consumes two whole ticks and leaves remainder 0.01. -/
theorem advanceTime_spec_witness :
    ((0:ℚ) < 3/200) ∧
    ((WorldState.mk 1 (0:ℚ) 0 true ()).running = true) ∧
    ((0:ℚ) ≤ 40 - (WorldState.mk 1 (0:ℚ) 0 true ()).lastStepTime) ∧
    (∃ n : ℕ,
       (advanceTime (fun _ s => s) (3/200) (by norm_num) 40
           (WorldState.mk 1 (0:ℚ) 0 true ())).2.currentIteration
         = (WorldState.mk 1 (0:ℚ) 0 true ()).currentIteration + n ∧
       (advanceTime (fun _ s => s) (3/200) (by norm_num) 40
           (WorldState.mk 1 (0:ℚ) 0 true ())).2.totalTime
         = (WorldState.mk 1 (0:ℚ) 0 true ()).totalTime + n * (3/200) ∧
       (40 - (WorldState.mk 1 (0:ℚ) 0 true ()).lastStepTime) / 1000
         = ((n : ℚ) + (advanceTime (fun _ s => s) (3/200) (by norm_num) 40
             (WorldState.mk 1 (0:ℚ) 0 true ())).1) * (3/200) ∧
       0 ≤ (advanceTime (fun _ s => s) (3/200) (by norm_num) 40
             (WorldState.mk 1 (0:ℚ) 0 true ())).1 ∧
       (advanceTime (fun _ s => s) (3/200) (by norm_num) 40
             (WorldState.mk 1 (0:ℚ) 0 true ())).1 ≤ 1) :=
  ⟨by norm_num, rfl, by norm_num,
   (advanceTime_spec (fun _ s => s) (3/200) (by norm_num) 40
      (WorldState.mk 1 (0:ℚ) 0 true ())).2 rfl (by norm_num)⟩

/-- C2 counterexample: a running world whose elapsed wall-clock time is
exactly one tick (dt = 0.015, elapsed 15 millis). The loop condition is
strict, so no step is performed even though the elapsed time contains one
whole tick, and the returned value is exactly 1, outside [0, 1). -/
theorem advanceTime_ratio_can_be_one :
    ((advanceTime (fun _ s => s) (3/200) (by norm_num) 15
        (WorldState.mk 1 0 0 true ())).1 = 1) ∧
    ¬ ((advanceTime (fun _ s => s) (3/200) (by norm_num) 15
        (WorldState.mk 1 0 0 true ())).1 < 1) ∧
    ((advanceTime (fun _ s => s) (3/200) (by norm_num) 15
        (WorldState.mk 1 0 0 true ())).2.currentIteration = 1) := by
  have h0 : getDtSinceLastStep (WorldState.mk 1 (0:ℚ) 0 true ()) 15 = 3/200 := by
    norm_num [getDtSinceLastStep]
  have h1 : advanceTime (fun _ s => s) (3/200) (by norm_num) 15
      (WorldState.mk 1 (0:ℚ) 0 true ())
      = ((3/200 : ℚ) / (3/200), WorldState.mk 1 (0:ℚ) 0 true ()) := by
    unfold advanceTime
    dsimp only
    rw [h0, advanceLoop_eq_of_le _ _ _ _ _ (by norm_num)]
  rw [h1]
  norm_num

/-! ## C5 -/

/-- The branch structure of distToSegmentSquared computes exactly the squared
distance to the projection point with the parameter clamped to [0, 1]. -/
theorem distToSegmentSquared_eq (p v1 v2 : ℚ × ℚ) :
    distToSegmentSquared p v1 v2 = sqDist p (clampedProjection p v1 v2) := by
  unfold distToSegmentSquared clampedProjection
  dsimp only
  by_cases h0 : sqDist v1 v2 = 0
  · rw [if_pos h0]
    have h1 : v2.1 - v1.1 = 0 ∧ v2.2 - v1.2 = 0 := by
      unfold sqDist at h0
      constructor <;> nlinarith [sq_nonneg (v2.1 - v1.1), sq_nonneg (v2.2 - v1.2)]
    simp only [sqDist]
    rw [h1.1, h1.2]
    ring
  · rw [if_neg h0]
    by_cases h1 : ((p.1 - v1.1) * (v2.1 - v1.1) + (p.2 - v1.2) * (v2.2 - v1.2))
        / sqDist v1 v2 < 0
    · rw [if_pos h1, max_eq_left (le_of_lt h1),
          min_eq_right (by norm_num : (0:ℚ) ≤ 1)]
      simp only [sqDist]
      ring
    · rw [if_neg h1]
      push_neg at h1
      rw [max_eq_right h1]
      by_cases h2 : ((p.1 - v1.1) * (v2.1 - v1.1) + (p.2 - v1.2) * (v2.2 - v1.2))
          / sqDist v1 v2 > 1
      · rw [if_pos h2, min_eq_left (le_of_lt h2)]
        simp only [sqDist]
        ring
      · rw [if_neg h2]
        push_neg at h2
        rw [min_eq_right h2]

/-- C5: Line.containsPoint returns true exactly when the point-to-segment
distance, computed with the projection parameter clamped to [0, 1], is at
most the width, the unsquared distance being compared directly against the
width. -/
theorem lineContainsPoint_iff (v1 v2 : ℚ × ℚ) (width : ℚ) (p : ℚ × ℚ)
    (hw : 0 < width) :
    lineContainsPoint v1 v2 width p ↔ lineContainsPointSpec v1 v2 width p := by
  unfold lineContainsPoint lineContainsPointSpec
  rw [distToSegmentSquared_eq]

/-- C5 witness: the midpoint of the segment from (0,0) to (2,0), offset by
one half, against width 1. -/
theorem lineContainsPoint_iff_witness :
    ((0:ℚ) < 1) ∧
    (lineContainsPoint (0, 0) (2, 0) 1 (1, 1/2) ↔
     lineContainsPointSpec (0, 0) (2, 0) 1 (1, 1/2)) :=
  ⟨by norm_num, lineContainsPoint_iff (0, 0) (2, 0) 1 (1, 1/2) (by norm_num)⟩

end PulleySim
